import Mathlib

/-!
A shallow embedding of the dispatch engine of `src/flux.js` (`class BaseDispatcher`,
lines 53-161) and proofs about it.

Modelling conventions:
* JS objects used as ordered string-keyed maps (`_payloadables`, `_isPending`,
  `_isHandled`) become association lists `List (String × α)`; JS property update
  keeps the position of an existing key and appends a fresh key, which is what
  `setKey` does; `delete` removes the entry (`delKey`); reading an absent boolean
  entry yields `undefined`, which is falsy, so boolean reads go through `lookupB`
  with default `false`.
* A subscriber (`Payloadable`) is modelled by the observable behaviour of its
  `_onPayload` callback: a list of `Act`s it performs against the engine,
  in order (call `waitFor`, throw, call `dispatch` reentrantly, `register` a
  new subscriber).
* `waitFor(...ids)` first maps each argument through its `.dispatchToken`
  property (line 87).  Arguments are JS values: an object carrying a
  `dispatchToken` field, or a raw string (which has no such property, so the
  access yields `undefined`; used as a property key, JS coerces `undefined`
  to the string key `"undefined"`).
* Thrown errors (`invariant` failures and subscriber throws) become an
  `Option Err` component threaded through the interpreter; `try/finally` in
  `dispatch` (lines 106-115) is modelled by applying `stopDispatching`
  to whatever state the loop produced, error or not.
* The `for...in` loop of `dispatch` (line 107) is modelled per the ECMAScript
  guarantees honoured by real engines: the key list is snapshotted when the
  loop starts, and a key deleted before being visited is skipped.
* Recursion between `dispatch`/`waitFor`/`_invokePayloadable` and subscriber
  callbacks is made total with a fuel parameter; exhausted fuel is reported
  as the distinguished `Err.fuelExhausted` and never occurs in the concrete
  runs below.
* The dispatched payload is opaque to the engine; it is modelled as a `Nat`.
-/

/-- Errors surfaced by the engine (the four `invariant` failures of
`src/flux.js`, as typed values carrying the offending token), plus a
subscriber-thrown error (`callbackError`), the JS `TypeError` that calling a
method of `undefined` would raise, and the fuel marker of the model. -/
inductive Err where
  | unknownSubscriber (id : String)
  | reentrantDispatch
  | notDispatching
  | circularDependency (id : String)
  | callbackError (msg : String)
  | typeError (id : String)
  | fuelExhausted
deriving DecidableEq, Repr

/-- Observable events of a run: `invoked id p` when `_invokePayloadable`
calls the callback stored under `id` with payload `p` (line 134), and
`handled id` when that callback has returned and `_isHandled[id]` is set
(line 135). -/
inductive Ev where
  | invoked (id : String) (payload : Option Nat)
  | handled (id : String)
deriving DecidableEq, Repr

/-- A JS value passed as an argument to `waitFor`: either an object carrying a
`dispatchToken` property (the intended use, cf. `Store`/`Controller` which set
`this.dispatchToken = ....register(this)`), or a raw string such as a token
itself, which has no `dispatchToken` property. -/
inductive JSValue where
  | obj (dispatchToken : String)
  | str (s : String)
deriving DecidableEq, Repr

/-- Reading the `.dispatchToken` property (line 87): objects yield the stored
token, a raw string yields `undefined` (`none`). -/
def JSValue.dispatchTokenProp : JSValue → Option String
  | .obj t => some t
  | .str _ => none

/-- A JS value used as a property key: `undefined` is coerced to the string
`"undefined"`. -/
def keyOf : Option String → String
  | some s => s
  | none => "undefined"

/-- One step a subscriber callback may take against the engine, in order:
call `waitFor` with the given arguments, throw an error, call `dispatch`
reentrantly with a payload, or `register` a fresh subscriber with the given
behaviour. -/
inductive Act where
  | waitForA (args : List JSValue)
  | throwErr (msg : String)
  | dispatchA (payload : Nat)
  | registerA (acts : List Act)

/-- Ordered-map read, JS `m[k]`. -/
def lookup? {α : Type} : List (String × α) → String → Option α
  | [], _ => none
  | (k', v) :: rest, k => if k' = k then some v else lookup? rest k

/-- Boolean read with JS falsiness of `undefined`: `m[k]` is truthy iff the
key is present and bound to `true`. -/
def lookupB (m : List (String × Bool)) (k : String) : Bool :=
  (lookup? m k).getD false

/-- Ordered-map write, JS `m[k] = v`: an existing key keeps its position, a
fresh key is appended. -/
def setKey {α : Type} : List (String × α) → String → α → List (String × α)
  | [], k, v => [(k, v)]
  | (k', v') :: rest, k, v =>
    if k' = k then (k, v) :: rest else (k', v') :: setKey rest k v

/-- Ordered-map removal, JS `delete m[k]`. -/
def delKey {α : Type} : List (String × α) → String → List (String × α)
  | [], _ => []
  | (k', v) :: rest, k =>
    if k' = k then delKey rest k else (k', v) :: delKey rest k

/-- The state of a `BaseDispatcher` instance (fields of lines 56-60, plus
`_pendingPayload` which is created in `_startDispatching` and deleted in
`_stopDispatching`, hence an `Option`). -/
structure Engine where
  payloadables : List (String × List Act)
  isDispatching : Bool
  isHandled : List (String × Bool)
  isPending : List (String × Bool)
  lastID : Nat
  pendingPayload : Option Nat

/-- A freshly constructed `BaseDispatcher` (field initializers, lines 56-60). -/
def initEngine : Engine :=
  { payloadables := [], isDispatching := false, isHandled := [], isPending := [],
    lastID := 1, pendingPayload := none }

/-- The token string minted for numeric id `n`:
`BaseDispatcher.Prefix + n` with `Prefix = 'ID_'` (lines 54, 68). -/
def mkTok (n : Nat) : String :=
  "ID_" ++ Nat.repr n

/-- `register(payloadable)` (lines 67-71): mint `Prefix + _lastID++`, store the
callback under it, return the token. -/
def registerE (e : Engine) (p : List Act) : String × Engine :=
  let id := mkTok e.lastID
  (id, { e with payloadables := setKey e.payloadables id p, lastID := e.lastID + 1 })

/-- `unregister(id)` (lines 76-79): fail with `UnknownSubscriber` when the
token has no registry entry, otherwise delete the entry. -/
def unregisterE (e : Engine) (id : String) : Engine × Option Err :=
  if (lookup? e.payloadables id).isNone then (e, some (.unknownSubscriber id))
  else ({ e with payloadables := delKey e.payloadables id }, none)

/-- `isDispatching()` (lines 121-123). -/
def isDispatchingQ (e : Engine) : Bool :=
  e.isDispatching

/-- `_startDispatching(payload)` (lines 143-150): for every registered token
set `_isPending` and `_isHandled` to `false`, store the payload, raise the
dispatching flag. -/
def startDispatching (e : Engine) (p : Nat) : Engine :=
  let e1 := e.payloadables.foldl
    (fun acc kv =>
      { acc with isPending := setKey acc.isPending kv.1 false,
                 isHandled := setKey acc.isHandled kv.1 false }) e
  { e1 with pendingPayload := some p, isDispatching := true }

/-- `_stopDispatching()` (lines 157-160): delete `_pendingPayload` and lower
the dispatching flag.  Note that `_isPending`/`_isHandled` are NOT touched
here. -/
def stopDispatching (e : Engine) : Engine :=
  { e with pendingPayload := none, isDispatching := false }

/-- Interpreter result: final engine state, event trace so far, and the error
that propagated (if any). -/
abbrev Res : Type := Engine × List Ev × Option Err

mutual

/-- `_invokePayloadable(id)` (lines 131-136): set `_isPending[id] = true`,
look up the callback, run it with `_pendingPayload` (recording an `invoked`
event; were the entry absent, the JS method call on `undefined` would raise a
`TypeError`), and on normal return set `_isHandled[id] = true` (recording a
`handled` event). -/
def invokePayloadable : Nat → Engine → List Ev → String → Res
  | 0, e, tr, _ => (e, tr, some .fuelExhausted)
  | n+1, e, tr, id =>
    let e1 : Engine := { e with isPending := setKey e.isPending id true }
    match lookup? e1.payloadables id with
    | none => (e1, tr, some (.typeError id))
    | some acts =>
      match runActions n e1 (tr ++ [.invoked id e1.pendingPayload]) acts with
      | (e2, tr2, some er) => (e2, tr2, some er)
      | (e2, tr2, none) =>
        ({ e2 with isHandled := setKey e2.isHandled id true }, tr2 ++ [.handled id], none)

/-- A subscriber callback body: run its actions in order; a thrown error
aborts the remaining actions and propagates. -/
def runActions : Nat → Engine → List Ev → List Act → Res
  | 0, e, tr, _ => (e, tr, some .fuelExhausted)
  | _+1, e, tr, [] => (e, tr, none)
  | n+1, e, tr, a :: rest =>
    match runAction n e tr a with
    | (e1, tr1, some er) => (e1, tr1, some er)
    | (e1, tr1, none) => runActions n e1 tr1 rest

/-- One callback action against the engine. -/
def runAction : Nat → Engine → List Ev → Act → Res
  | 0, e, tr, _ => (e, tr, some .fuelExhausted)
  | n+1, e, tr, Act.waitForA args => waitForRun n e tr args
  | _+1, e, tr, Act.throwErr m => (e, tr, some (.callbackError m))
  | n+1, e, tr, Act.dispatchA p => dispatchRun n e tr p
  | _+1, e, tr, Act.registerA acts => ((registerE e acts).2, tr, none)

/-- `waitFor(...ids)` (lines 86-98): map each argument through its
`.dispatchToken` property (line 87), fail with `NotDispatching` unless a
round is active (line 88), then process the resulting keys in order. -/
def waitForRun : Nat → Engine → List Ev → List JSValue → Res
  | 0, e, tr, _ => (e, tr, some .fuelExhausted)
  | n+1, e, tr, args =>
    let ids := args.map fun a => keyOf a.dispatchTokenProp
    if e.isDispatching = true then waitLoop n e tr ids
    else (e, tr, some .notDispatching)

/-- The `for` loop of `waitFor` (lines 89-97): a pending-and-handled token is
skipped, a pending-but-not-handled token raises `CircularDependency`, a
non-pending unregistered token raises `UnknownSubscriber`, otherwise the token
is invoked now and, on success, the loop continues. -/
def waitLoop : Nat → Engine → List Ev → List String → Res
  | 0, e, tr, _ => (e, tr, some .fuelExhausted)
  | _+1, e, tr, [] => (e, tr, none)
  | n+1, e, tr, id :: rest =>
    if lookupB e.isPending id = true then
      if lookupB e.isHandled id = true then waitLoop n e tr rest
      else (e, tr, some (.circularDependency id))
    else if (lookup? e.payloadables id).isNone then (e, tr, some (.unknownSubscriber id))
    else
      match invokePayloadable n e tr id with
      | (e1, tr1, some er) => (e1, tr1, some er)
      | (e1, tr1, none) => waitLoop n e1 tr1 rest

/-- The `for...in` loop of `dispatch` (lines 107-112) over the key snapshot:
a key deleted since the loop started is skipped (ECMAScript `for...in`
guarantee), a pending key is skipped (line 108), otherwise the key is invoked
and, on success, the loop continues. -/
def dispatchLoop : Nat → Engine → List Ev → List String → Res
  | 0, e, tr, _ => (e, tr, some .fuelExhausted)
  | _+1, e, tr, [] => (e, tr, none)
  | n+1, e, tr, id :: rest =>
    if (lookup? e.payloadables id).isNone then dispatchLoop n e tr rest
    else if lookupB e.isPending id = true then dispatchLoop n e tr rest
    else
      match invokePayloadable n e tr id with
      | (e1, tr1, some er) => (e1, tr1, some er)
      | (e1, tr1, none) => dispatchLoop n e1 tr1 rest

/-- `dispatch(payload)` (lines 103-116): fail with `ReentrantDispatch` when a
round is already active (line 104) — leaving all state untouched — otherwise
`_startDispatching(payload)`, run the registry loop, and in all cases
(`finally`, line 113) apply `_stopDispatching` before returning or
propagating the loop's error. -/
def dispatchRun : Nat → Engine → List Ev → Nat → Res
  | 0, e, tr, _ => (e, tr, some .fuelExhausted)
  | n+1, e, tr, p =>
    if e.isDispatching = true then (e, tr, some .reentrantDispatch)
    else
      match dispatchLoop n (startDispatching e p) tr
          ((startDispatching e p).payloadables.map Prod.fst) with
      | (e2, tr2, err) => (stopDispatching e2, tr2, err)

end

/-- The tokens whose callbacks were invoked, in invocation order. -/
def invokedIds : List Ev → List String
  | [] => []
  | .invoked id _ :: t => id :: invokedIds t
  | .handled _ :: t => invokedIds t

/-- The tokens whose callbacks ran to completion, in completion order. -/
def handledIds : List Ev → List String
  | [] => []
  | .invoked _ _ :: t => handledIds t
  | .handled id :: t => id :: handledIds t

/-- The decimal digit characters of `n`, most significant first.  This is the
list that `Nat.toDigitsCore` produces when given sufficient fuel (proved
below), in a fuel-free form convenient for reasoning about `Nat.repr`. -/
def decChars (n : Nat) : List Char :=
  if _h : n < 10 then [Nat.digitChar n]
  else
    have : n / 10 < n := Nat.div_lt_self (by omega) (by omega)
    decChars (n / 10) ++ [Nat.digitChar (n % 10)]

/-- The numeric value of a decimal digit character. -/
def charVal (c : Char) : Nat := c.toNat - 48

/-- Decode a most-significant-first decimal digit string back to a number;
a left inverse of `decChars`, used to show tokens are never reused. -/
def decodeChars (l : List Char) : Nat :=
  l.foldl (fun a c => 10 * a + charVal c) 0

/-- One registry operation of the public interface: `register` a subscriber
with the given behaviour, or `unregister` a token. -/
inductive RegOp where
  | reg (p : List Act)
  | unreg (tok : String)

/-- Run a sequence of registry operations, collecting every token that
`register` returned.  A failing `unregister` leaves the engine unchanged
(the `invariant` throws before the `delete`) and the sequence continues. -/
def applyOps : Engine → List RegOp → Engine × List String
  | e, [] => (e, [])
  | e, RegOp.reg p :: rest =>
    let (t, e1) := registerE e p
    let (e2, ts) := applyOps e1 rest
    (e2, t :: ts)
  | e, RegOp.unreg t :: rest => applyOps (unregisterE e t).1 rest

/-- The per-round token-state invariant: a handled token is pending
(`handled` is only ever set after `pending`). -/
def RoundInv (e : Engine) : Prop :=
  ∀ id, lookupB e.isHandled id = true → lookupB e.isPending id = true

/-- What one interpreter step starting from state `e` and trace `tr`
guarantees about its result `r` while a round is active: the dispatching flag
stays up, the pending and handled flags never regress, the handled-implies-
pending invariant is preserved, and the trace grows by a suffix whose invoked
tokens are pairwise distinct and were not pending before (hence no token is
invoked twice). -/
structure Steps (e : Engine) (tr : List Ev) (r : Res) : Prop where
  disp : r.1.isDispatching = true
  pendMono : ∀ id, lookupB e.isPending id = true → lookupB r.1.isPending id = true
  handMono : ∀ id, lookupB e.isHandled id = true → lookupB r.1.isHandled id = true
  inv : RoundInv e → RoundInv r.1
  trNew : ∃ Δ, r.2.1 = tr ++ Δ ∧ (invokedIds Δ).Nodup ∧
    ∀ id ∈ invokedIds Δ, lookupB e.isPending id = false ∧ lookupB r.1.isPending id = true

/-- Scenario: subscribers A, B, C, D registered in this order; A's callback
waits for B, B's callback waits for C, C and D do nothing.  Tokens are
`ID_1` … `ID_4`. -/
def engABCD : Engine :=
  let (_, e1) := registerE initEngine [Act.waitForA [JSValue.obj "ID_2"]]
  let (_, e2) := registerE e1 [Act.waitForA [JSValue.obj "ID_3"]]
  let (_, e3) := registerE e2 []
  let (_, e4) := registerE e3 []
  e4

/-- Scenario: subscribers X (`ID_1`) and Y (`ID_2`) whose callbacks wait for
each other. -/
def engXY : Engine :=
  let (_, e1) := registerE initEngine [Act.waitForA [JSValue.obj "ID_2"]]
  let (_, e2) := registerE e1 [Act.waitForA [JSValue.obj "ID_1"]]
  e2

/-- Scenario: a single subscriber (`ID_1`) that does nothing. -/
def engSolo : Engine := (registerE initEngine []).2

/-- Scenario: a single subscriber (`ID_1`) whose callback registers a fresh
do-nothing subscriber mid-round (which receives token `ID_2`) and then calls
`waitFor` on that fresh token. -/
def engLate : Engine :=
  (registerE initEngine [Act.registerA [], Act.waitForA [JSValue.obj "ID_2"]]).2

/-- Scenario: a single subscriber (`ID_1`) whose callback registers a fresh
subscriber with behaviour `acts` mid-round and does nothing else. -/
def engLateReg (acts : List Act) : Engine :=
  (registerE initEngine [Act.registerA acts]).2

/-- Scenario: three subscribers; the second throws the error `m`, the first
and third do nothing. -/
def engThrowM (m : String) : Engine :=
  let (_, e1) := registerE initEngine []
  let (_, e2) := registerE e1 [Act.throwErr m]
  let (_, e3) := registerE e2 []
  e3

/-- Scenario: subscriber A (`ID_1`) calls `waitFor` passing the raw token
string `"ID_2"` of the registered, not-yet-invoked subscriber B (`ID_2`). -/
def engRaw : Engine :=
  let (_, e1) := registerE initEngine [Act.waitForA [JSValue.str "ID_2"]]
  let (_, e2) := registerE e1 []
  e2

theorem lookup?_setKey_self {α : Type} (m : List (String × α)) (k : String) (v : α) :
    lookup? (setKey m k v) k = some v := by
  induction m with
  | nil => simp [setKey, lookup?]
  | cons kv rest ih =>
    obtain ⟨k', v'⟩ := kv
    by_cases h : k' = k
    · simp [setKey, h, lookup?]
    · simp [setKey, h, lookup?, ih]

theorem lookup?_setKey_ne {α : Type} (m : List (String × α)) (k k' : String) (v : α)
    (h : k' ≠ k) : lookup? (setKey m k v) k' = lookup? m k' := by
  have hne : k ≠ k' := fun hh => h hh.symm
  induction m with
  | nil => simp [setKey, lookup?, hne]
  | cons kv rest ih =>
    obtain ⟨k'', v''⟩ := kv
    by_cases hk : k'' = k
    · subst hk
      simp [setKey, lookup?, hne]
    · simp only [setKey, hk, if_false, lookup?]
      by_cases hq : k'' = k'
      · simp [hq]
      · simp [hq, ih]

theorem lookupB_setKey_self (m : List (String × Bool)) (k : String) (b : Bool) :
    lookupB (setKey m k b) k = b := by
  simp [lookupB, lookup?_setKey_self]

theorem lookupB_setKey_ne (m : List (String × Bool)) (k k' : String) (b : Bool)
    (h : k' ≠ k) : lookupB (setKey m k b) k' = lookupB m k' := by
  simp [lookupB, lookup?_setKey_ne m k k' b h]

theorem lookup?_delKey_self {α : Type} (m : List (String × α)) (k : String) :
    lookup? (delKey m k) k = none := by
  induction m with
  | nil => simp [delKey, lookup?]
  | cons kv rest ih =>
    obtain ⟨k', v'⟩ := kv
    by_cases h : k' = k
    · simp [delKey, h, ih]
    · simp [delKey, h, lookup?, ih]

theorem toDigitsCore_eq_decChars (n : Nat) :
    ∀ (f : Nat) (l : List Char), n < f →
      Nat.toDigitsCore 10 f n l = decChars n ++ l := by
  induction n using Nat.strong_induction_on with
  | _ n ih =>
    intro f l hf
    match f, hf with
    | g + 1, _ =>
      rw [Nat.toDigitsCore]
      by_cases h10 : n < 10
      · have hz : n / 10 = 0 := Nat.div_eq_of_lt h10
        rw [decChars]
        simp [hz, h10, Nat.mod_eq_of_lt h10]
      · have hpos : 0 < n / 10 := Nat.div_pos (by omega) (by decide)
        have hlt : n / 10 < n := Nat.div_lt_self (by omega) (by decide)
        have hlt' : n / 10 < g := by omega
        rw [decChars]
        simp only [h10, dif_neg, not_false_iff, Nat.ne_of_gt hpos, if_neg,
          ih (n / 10) hlt g (Nat.digitChar (n % 10) :: l) hlt', List.append_assoc,
          List.singleton_append]

theorem toDigits_eq_decChars (n : Nat) : Nat.toDigits 10 n = decChars n := by
  have h := toDigitsCore_eq_decChars n (n + 1) [] (Nat.lt_succ_self n)
  simpa [Nat.toDigits] using h

theorem charVal_digitChar (d : Nat) (h : d < 10) :
    charVal (Nat.digitChar d) = d := by
  interval_cases d <;> rfl

theorem foldl_decode_decChars (n : Nat) :
    ∀ a : Nat, List.foldl (fun x c => 10 * x + charVal c) a (decChars n) =
      a * 10 ^ (decChars n).length + n := by
  induction n using Nat.strong_induction_on with
  | _ n ih =>
    intro a
    by_cases h10 : n < 10
    · rw [decChars]
      simp [h10, charVal_digitChar n h10, Nat.pow_one]
      omega
    · have hlt : n / 10 < n := Nat.div_lt_self (by omega) (by decide)
      have hdm : 10 * (n / 10) + n % 10 = n := Nat.div_add_mod n 10
      have hmod : n % 10 < 10 := Nat.mod_lt n (by decide)
      rw [decChars]
      simp only [h10, dif_neg, not_false_iff, List.foldl_append, List.foldl_cons,
        List.foldl_nil, ih (n / 10) hlt a, charVal_digitChar (n % 10) hmod,
        List.length_append, List.length_cons, List.length_nil, Nat.pow_succ]
      generalize (10 : Nat) ^ (decChars (n / 10)).length = P
      ring_nf
      omega

theorem decodeChars_decChars (n : Nat) : decodeChars (decChars n) = n := by
  have h := foldl_decode_decChars n 0
  simpa [decodeChars] using h

theorem reprData_inj (m n : Nat) (h : (Nat.repr m).data = (Nat.repr n).data) :
    m = n := by
  have h2 : decChars m = decChars n := by
    have e1 : (Nat.repr m).data = decChars m := by
      simp [Nat.repr, toDigits_eq_decChars, List.asString]
    have e2 : (Nat.repr n).data = decChars n := by
      simp [Nat.repr, toDigits_eq_decChars, List.asString]
    rw [← e1, ← e2, h]
  have hm := decodeChars_decChars m
  rw [h2, decodeChars_decChars] at hm
  exact hm.symm

theorem mkTok_injective (m n : Nat) (h : mkTok m = mkTok n) : m = n := by
  apply reprData_inj
  have hd := congrArg String.data h
  simp only [mkTok, String.data_append] at hd
  exact List.append_cancel_left hd

theorem unregisterE_lastID (e : Engine) (t : String) :
    (unregisterE e t).1.lastID = e.lastID := by
  unfold unregisterE
  split <;> rfl

theorem applyOps_tokens (ops : List RegOp) :
    ∀ e : Engine, ((applyOps e ops).2).Nodup ∧
      ∀ t ∈ (applyOps e ops).2, ∃ k, e.lastID ≤ k ∧ t = mkTok k := by
  induction ops with
  | nil => intro e; simp [applyOps]
  | cons op rest ih =>
    intro e
    cases op with
    | reg p =>
      obtain ⟨hnd, hmem⟩ := ih (registerE e p).2
      have hlast : (registerE e p).2.lastID = e.lastID + 1 := rfl
      rw [hlast] at hmem
      constructor
      · simp only [applyOps, List.nodup_cons]
        refine ⟨fun hin => ?_, hnd⟩
        obtain ⟨k, hk, heq⟩ := hmem _ hin
        have := mkTok_injective e.lastID k heq
        omega
      · intro t ht
        simp only [applyOps, List.mem_cons] at ht
        rcases ht with h1 | h2
        · exact ⟨e.lastID, Nat.le_refl _, h1⟩
        · obtain ⟨k, hk, heq⟩ := hmem t h2
          exact ⟨k, by omega, heq⟩
    | unreg t =>
      obtain ⟨hnd, hmem⟩ := ih (unregisterE e t).1
      rw [unregisterE_lastID] at hmem
      exact ⟨hnd, fun t' ht' => hmem t' ht'⟩

theorem invokedIds_append (l1 l2 : List Ev) :
    invokedIds (l1 ++ l2) = invokedIds l1 ++ invokedIds l2 := by
  induction l1 with
  | nil => rfl
  | cons ev t ih => cases ev <;> simp [invokedIds, ih]

theorem Steps.triv {e : Engine} {tr : List Ev} {x : Option Err}
    (h : e.isDispatching = true) : Steps e tr (e, tr, x) :=
  { disp := h
    pendMono := fun _ hh => hh
    handMono := fun _ hh => hh
    inv := fun hh => hh
    trNew := ⟨[], by simp, by simp [invokedIds], by simp [invokedIds]⟩ }

theorem Steps.ofRegister {e : Engine} {tr : List Ev} (acts : List Act)
    (h : e.isDispatching = true) : Steps e tr ((registerE e acts).2, tr, none) :=
  { disp := h
    pendMono := fun _ hh => hh
    handMono := fun _ hh => hh
    inv := fun hh => hh
    trNew := ⟨[], by simp, by simp [invokedIds], by simp [invokedIds]⟩ }

theorem Steps.setPending {e : Engine} {tr : List Ev} {id : String} {x : Option Err}
    (h : e.isDispatching = true) :
    Steps e tr ({ e with isPending := setKey e.isPending id true }, tr, x) := by
  refine { disp := h, handMono := fun _ hh => hh,
           trNew := ⟨[], by simp, by simp [invokedIds], by simp [invokedIds]⟩,
           pendMono := ?_, inv := ?_ }
  · intro id' hh
    by_cases hid : id' = id
    · subst hid; exact lookupB_setKey_self _ _ _
    · rw [lookupB_setKey_ne _ _ _ _ hid]; exact hh
  · intro hI id' hh
    by_cases hid : id' = id
    · subst hid; exact lookupB_setKey_self _ _ _
    · rw [lookupB_setKey_ne _ _ _ _ hid]
      exact hI id' hh

theorem Steps.invokeStart {e : Engine} {tr : List Ev} {id : String} {p : Option Nat}
    {x : Option Err} (h : e.isDispatching = true) (hp : lookupB e.isPending id = false) :
    Steps e tr
      ({ e with isPending := setKey e.isPending id true }, tr ++ [Ev.invoked id p], x) := by
  refine { disp := h, handMono := fun _ hh => hh,
           trNew := ⟨[Ev.invoked id p], rfl, by simp [invokedIds], ?_⟩,
           pendMono := (Steps.setPending (x := x) h).pendMono,
           inv := (Steps.setPending (x := x) h).inv }
  intro id' hid'
  simp only [invokedIds, List.mem_singleton] at hid'
  subst hid'
  exact ⟨hp, lookupB_setKey_self _ _ _⟩

theorem Steps.setHandled {e : Engine} {tr : List Ev} {id : String}
    (h : e.isDispatching = true) (hpend : lookupB e.isPending id = true) :
    Steps e tr
      ({ e with isHandled := setKey e.isHandled id true }, tr ++ [Ev.handled id], none) := by
  refine { disp := h, pendMono := fun _ hh => hh,
           trNew := ⟨[Ev.handled id], rfl, by simp [invokedIds], by simp [invokedIds]⟩,
           handMono := ?_, inv := ?_ }
  · intro id' hh
    by_cases hid : id' = id
    · subst hid; exact lookupB_setKey_self _ _ _
    · rw [lookupB_setKey_ne _ _ _ _ hid]; exact hh
  · intro hI id' hh
    by_cases hid : id' = id
    · subst hid; exact hpend
    · rw [lookupB_setKey_ne _ _ _ _ hid] at hh
      exact hI id' hh

theorem Steps.comp {e e1 e2 : Engine} {tr tr1 tr2 : List Ev} {x y : Option Err}
    (h1 : Steps e tr (e1, tr1, x)) (h2 : Steps e1 tr1 (e2, tr2, y)) :
    Steps e tr (e2, tr2, y) := by
  obtain ⟨d1, htr1, hnd1, hmem1⟩ := h1.trNew
  obtain ⟨d2, htr2, hnd2, hmem2⟩ := h2.trNew
  refine { disp := h2.disp,
           pendMono := fun id hh => h2.pendMono id (h1.pendMono id hh),
           handMono := fun id hh => h2.handMono id (h1.handMono id hh),
           inv := fun hh => h2.inv (h1.inv hh),
           trNew := ⟨d1 ++ d2, ?_, ?_, ?_⟩ }
  · simp only at htr1 htr2
    rw [htr2, htr1, List.append_assoc]
  · rw [invokedIds_append]
    refine List.Nodup.append hnd1 hnd2 ?_
    intro id hin1 hin2
    have ha := (hmem1 id hin1).2
    have hb := (hmem2 id hin2).1
    simp only at ha hb
    rw [ha] at hb
    cases hb
  · intro id hid
    rw [invokedIds_append, List.mem_append] at hid
    rcases hid with hin | hin
    · exact ⟨(hmem1 id hin).1, h2.pendMono id (hmem1 id hin).2⟩
    · have hf : lookupB e1.isPending id = false := (hmem2 id hin).1
      constructor
      · cases hx : lookupB e.isPending id
        · rfl
        · rw [h1.pendMono id hx] at hf
          cases hf
      · exact (hmem2 id hin).2

theorem invoke_succ_none (n : Nat) (e : Engine) (tr : List Ev) (id : String)
    (hfind : lookup? e.payloadables id = none) :
    invokePayloadable (n+1) e tr id =
      ({ e with isPending := setKey e.isPending id true }, tr, some (Err.typeError id)) := by
  rw [invokePayloadable]
  simp only [hfind]

theorem invoke_succ_some (n : Nat) (e : Engine) (tr : List Ev) (id : String) (acts : List Act)
    (hfind : lookup? e.payloadables id = some acts) :
    invokePayloadable (n+1) e tr id =
      (match runActions n { e with isPending := setKey e.isPending id true }
          (tr ++ [Ev.invoked id e.pendingPayload]) acts with
       | (e2, tr2, some er) => (e2, tr2, some er)
       | (e2, tr2, none) =>
         ({ e2 with isHandled := setKey e2.isHandled id true }, tr2 ++ [Ev.handled id], none)) := by
  rw [invokePayloadable]
  simp only [hfind]

theorem roundSteps : ∀ n : Nat,
    (∀ e tr id, e.isDispatching = true → lookupB e.isPending id = false →
      Steps e tr (invokePayloadable n e tr id)) ∧
    (∀ e tr acts, e.isDispatching = true → Steps e tr (runActions n e tr acts)) ∧
    (∀ e tr a, e.isDispatching = true → Steps e tr (runAction n e tr a)) ∧
    (∀ e tr args, e.isDispatching = true → Steps e tr (waitForRun n e tr args)) ∧
    (∀ e tr ids, e.isDispatching = true → Steps e tr (waitLoop n e tr ids)) ∧
    (∀ e tr ids, e.isDispatching = true → Steps e tr (dispatchLoop n e tr ids)) := by
  intro n
  induction n with
  | zero =>
    exact ⟨fun e tr id h _ => Steps.triv h, fun e tr acts h => Steps.triv h,
           fun e tr a h => Steps.triv h, fun e tr args h => Steps.triv h,
           fun e tr ids h => Steps.triv h, fun e tr ids h => Steps.triv h⟩
  | succ n ih =>
    obtain ⟨ihInv, ihActs, ihAct, ihWFR, ihWL, ihDL⟩ := ih
    refine ⟨?_, ?_, ?_, ?_, ?_, ?_⟩
    -- _invokePayloadable
    · intro e tr id h hp
      cases hfind : lookup? e.payloadables id with
      | none =>
        rw [invoke_succ_none n e tr id hfind]
        exact Steps.setPending h
      | some acts =>
        rw [invoke_succ_some n e tr id acts hfind]
        rcases hrun : runActions n { e with isPending := setKey e.isPending id true }
            (tr ++ [Ev.invoked id e.pendingPayload]) acts with ⟨e2, tr2, err2⟩
        have hS : Steps { e with isPending := setKey e.isPending id true }
            (tr ++ [Ev.invoked id e.pendingPayload]) (e2, tr2, err2) :=
          hrun ▸ ihActs _ _ acts h
        have hstart : Steps e tr
            ({ e with isPending := setKey e.isPending id true },
              tr ++ [Ev.invoked id e.pendingPayload], err2) :=
          Steps.invokeStart h hp
        cases err2 with
        | some er => exact Steps.comp hstart hS
        | none =>
          have hpend2 : lookupB e2.isPending id = true :=
            hS.pendMono id (lookupB_setKey_self _ _ _)
          exact Steps.comp (Steps.comp hstart hS) (Steps.setHandled hS.disp hpend2)
    -- callback body
    · intro e tr acts h
      cases acts with
      | nil => exact Steps.triv h
      | cons a rest =>
        rw [runActions]
        rcases h1 : runAction n e tr a with ⟨e1, tr1, err1⟩
        have hS1 : Steps e tr (e1, tr1, err1) := h1 ▸ ihAct e tr a h
        cases err1 with
        | some er => exact hS1
        | none => exact Steps.comp hS1 (ihActs e1 tr1 rest hS1.disp)
    -- one action
    · intro e tr a h
      cases a with
      | waitForA args =>
        rw [runAction]
        exact ihWFR e tr args h
      | throwErr m => exact Steps.triv h
      | dispatchA p =>
        rw [runAction]
        cases n with
        | zero => exact Steps.triv h
        | succ m =>
          rw [dispatchRun]
          simp only [h, if_true]
          exact Steps.triv h
      | registerA acts =>
        rw [runAction]
        exact Steps.ofRegister acts h
    -- waitFor entry
    · intro e tr args h
      rw [waitForRun]
      simp only [h, if_true]
      exact ihWL e tr _ h
    -- waitFor loop
    · intro e tr ids h
      cases ids with
      | nil => exact Steps.triv h
      | cons id rest =>
        rw [waitLoop]
        by_cases hpend : lookupB e.isPending id = true
        · simp only [hpend, if_true]
          by_cases hhand : lookupB e.isHandled id = true
          · simp only [hhand, if_true]
            exact ihWL e tr rest h
          · simp only [hhand, if_false]
            exact Steps.triv h
        · have hpf : lookupB e.isPending id = false := by
            revert hpend; cases lookupB e.isPending id <;> simp
          simp only [hpf, if_false]
          cases hfind : lookup? e.payloadables id with
          | none => simp only [hfind, Option.isNone_none, if_true]; exact Steps.triv h
          | some acts =>
            simp only [hfind, Option.isNone_some, if_false]
            rcases hstep : invokePayloadable n e tr id with ⟨e1, tr1, err1⟩
            have hS1 : Steps e tr (e1, tr1, err1) := hstep ▸ ihInv e tr id h hpf
            cases err1 with
            | some er => exact hS1
            | none => exact Steps.comp hS1 (ihWL e1 tr1 rest hS1.disp)
    -- dispatch loop
    · intro e tr ids h
      cases ids with
      | nil => exact Steps.triv h
      | cons id rest =>
        rw [dispatchLoop]
        cases hfind : lookup? e.payloadables id with
        | none =>
          simp only [hfind, Option.isNone_none, if_true]
          exact ihDL e tr rest h
        | some acts =>
          simp only [hfind, Option.isNone_some, if_false]
          by_cases hpend : lookupB e.isPending id = true
          · simp only [hpend, if_true]
            exact ihDL e tr rest h
          · have hpf : lookupB e.isPending id = false := by
              revert hpend; cases lookupB e.isPending id <;> simp
            simp only [hpf, if_false]
            rcases hstep : invokePayloadable n e tr id with ⟨e1, tr1, err1⟩
            have hS1 : Steps e tr (e1, tr1, err1) := hstep ▸ ihInv e tr id h hpf
            cases err1 with
            | some er => exact hS1
            | none => exact Steps.comp hS1 (ihDL e1 tr1 rest hS1.disp)

theorem startDispatching_inv (e : Engine) (p : Nat) (h : RoundInv e) :
    RoundInv (startDispatching e p) := by
  have hgen : ∀ (l : List (String × List Act)) (acc : Engine), RoundInv acc →
      RoundInv (l.foldl (fun acc kv =>
        { acc with isPending := setKey acc.isPending kv.1 false,
                   isHandled := setKey acc.isHandled kv.1 false }) acc) := by
    intro l
    induction l with
    | nil => intro acc ha; exact ha
    | cons kv t ihl =>
      intro acc ha
      simp only [List.foldl_cons]
      apply ihl
      intro id hh
      by_cases hid : id = kv.1
      · subst hid
        rw [lookupB_setKey_self] at hh
        cases hh
      · rw [lookupB_setKey_ne _ _ _ _ hid] at hh
        rw [lookupB_setKey_ne _ _ _ _ hid]
        exact ha id hh
  exact fun id hh => hgen e.payloadables e h id hh

theorem dispatchRun_succ (n : Nat) (e : Engine) (tr : List Ev) (p : Nat)
    (h : e.isDispatching = false) :
    dispatchRun (n+1) e tr p =
      (stopDispatching (dispatchLoop n (startDispatching e p) tr
          ((startDispatching e p).payloadables.map Prod.fst)).1,
        (dispatchLoop n (startDispatching e p) tr
          ((startDispatching e p).payloadables.map Prod.fst)).2.1,
        (dispatchLoop n (startDispatching e p) tr
          ((startDispatching e p).payloadables.map Prod.fst)).2.2) := by
  rw [dispatchRun]
  rcases hL : dispatchLoop n (startDispatching e p) tr
      ((startDispatching e p).payloadables.map Prod.fst) with ⟨e2, tr2, err⟩
  simp [h, hL]

theorem dispatch_round_inv (n : Nat) (e : Engine) (tr : List Ev) (p : Nat)
    (h : e.isDispatching = false) (hI : RoundInv e) :
    RoundInv (dispatchRun (n+1) e tr p).1 := by
  rw [dispatchRun_succ n e tr p h]
  have hS := (roundSteps n).2.2.2.2.2 (startDispatching e p) tr
      ((startDispatching e p).payloadables.map Prod.fst) rfl
  have hres := hS.inv (startDispatching_inv e p hI)
  exact fun id hh => hres id hh

theorem dispatch_round_nodup (n : Nat) (e : Engine) (tr : List Ev) (p : Nat)
    (h : e.isDispatching = false) :
    ∃ d, (dispatchRun (n+1) e tr p).2.1 = tr ++ d ∧ (invokedIds d).Nodup := by
  rw [dispatchRun_succ n e tr p h]
  have hS := (roundSteps n).2.2.2.2.2 (startDispatching e p) tr
      ((startDispatching e p).payloadables.map Prod.fst) rfl
  obtain ⟨d, htr, hnd, _⟩ := hS.trNew
  exact ⟨d, htr, hnd⟩

theorem invoke_handled (n : Nat) (e : Engine) (tr : List Ev) (id : String)
    (e' : Engine) (tr' : List Ev)
    (hsucc : invokePayloadable n e tr id = (e', tr', none)) :
    lookupB e'.isHandled id = true ∧ ∃ tr0, tr' = tr0 ++ [Ev.handled id] := by
  cases n with
  | zero =>
    rw [invokePayloadable] at hsucc
    simp at hsucc
  | succ m =>
    cases hfind : lookup? e.payloadables id with
    | none =>
      rw [invoke_succ_none m e tr id hfind] at hsucc
      simp at hsucc
    | some acts =>
      rw [invoke_succ_some m e tr id acts hfind] at hsucc
      rcases hrun : runActions m { e with isPending := setKey e.isPending id true }
          (tr ++ [Ev.invoked id e.pendingPayload]) acts with ⟨e2, tr2, err2⟩
      rw [hrun] at hsucc
      cases err2 with
      | some er => simp at hsucc
      | none =>
        simp only [Prod.mk.injEq] at hsucc
        obtain ⟨he, htr, -⟩ := hsucc
        subst he
        exact ⟨lookupB_setKey_self _ _ _, tr2, htr.symm⟩

theorem invoke_pending (n : Nat) (e : Engine) (tr : List Ev) (id : String)
    (h : e.isDispatching = true) :
    lookupB ((invokePayloadable (n+1) e tr id).1).isPending id = true := by
  cases hfind : lookup? e.payloadables id with
  | none =>
    rw [invoke_succ_none n e tr id hfind]
    exact lookupB_setKey_self _ _ _
  | some acts =>
    rw [invoke_succ_some n e tr id acts hfind]
    rcases hrun : runActions n { e with isPending := setKey e.isPending id true }
        (tr ++ [Ev.invoked id e.pendingPayload]) acts with ⟨e2, tr2, err2⟩
    have hS : Steps { e with isPending := setKey e.isPending id true }
        (tr ++ [Ev.invoked id e.pendingPayload]) (e2, tr2, err2) :=
      hrun ▸ (roundSteps n).2.1 _ _ acts h
    have hp2 : lookupB e2.isPending id = true := hS.pendMono id (lookupB_setKey_self _ _ _)
    cases err2 with
    | some er => exact hp2
    | none => exact hp2

theorem waitLoop_cons_invoke (n : Nat) (e : Engine) (tr : List Ev) (id : String)
    (rest : List String) (e' : Engine) (tr' : List Ev)
    (hp : lookupB e.isPending id = false)
    (hreg : (lookup? e.payloadables id).isNone = false)
    (hsucc : invokePayloadable n e tr id = (e', tr', none)) :
    waitLoop (n+1) e tr (id :: rest) = waitLoop n e' tr' rest := by
  rw [waitLoop]
  simp only [hp, hreg, Bool.false_eq_true, if_false, hsucc]

theorem waitLoop_cons_error (n : Nat) (e : Engine) (tr : List Ev) (id : String)
    (rest : List String) (e1 : Engine) (tr1 : List Ev) (er : Err)
    (hp : lookupB e.isPending id = false)
    (hreg : (lookup? e.payloadables id).isNone = false)
    (herr : invokePayloadable n e tr id = (e1, tr1, some er)) :
    waitLoop (n+1) e tr (id :: rest) = (e1, tr1, some er) := by
  rw [waitLoop]
  simp only [hp, hreg, Bool.false_eq_true, if_false, herr]

theorem dispatchLoop_cons_error (n : Nat) (e : Engine) (tr : List Ev) (id : String)
    (rest : List String) (e1 : Engine) (tr1 : List Ev) (er : Err)
    (hreg : (lookup? e.payloadables id).isNone = false)
    (hp : lookupB e.isPending id = false)
    (herr : invokePayloadable n e tr id = (e1, tr1, some er)) :
    dispatchLoop (n+1) e tr (id :: rest) = (e1, tr1, some er) := by
  rw [dispatchLoop]
  simp only [hp, hreg, Bool.false_eq_true, if_false, herr]

theorem waitLoop_cons_skip (n : Nat) (e : Engine) (tr : List Ev) (id : String)
    (rest : List String)
    (hp : lookupB e.isPending id = true) (hh : lookupB e.isHandled id = true) :
    waitLoop (n+1) e tr (id :: rest) = waitLoop n e tr rest := by
  rw [waitLoop]
  simp only [hp, hh, if_true]

theorem dispatchLoop_cons_skip (n : Nat) (e : Engine) (tr : List Ev) (id : String)
    (rest : List String) (hp : lookupB e.isPending id = true) :
    dispatchLoop (n+1) e tr (id :: rest) = dispatchLoop n e tr rest := by
  rw [dispatchLoop]
  by_cases hfind : (lookup? e.payloadables id).isNone = true
  · simp only [hfind, if_true]
  · simp [hfind, hp]

/-- Claim C1: with subscribers A, B, C, D registered in this order, A waiting
for B and B waiting for C, one `dispatch` completes the callbacks in the
order C, B, A, with the independent D in its registration-order slot
(completion order `ID_3, ID_2, ID_1, ID_4`); and in general a `waitFor`
target that is not yet pending runs to completion before the waiting
callback proceeds past that `waitFor` call: a successful invocation leaves
the target handled, and the `waitFor` loop only continues past an invoked
target in the state its successful invocation produced. -/
theorem flux_C1 :
    (∀ p : Nat,
      (dispatchRun 100 engABCD [] p).2.2 = none ∧
      handledIds (dispatchRun 100 engABCD [] p).2.1 = ["ID_3", "ID_2", "ID_1", "ID_4"]) ∧
    (∀ (n : Nat) (e e' : Engine) (tr tr' : List Ev) (id : String),
      invokePayloadable n e tr id = (e', tr', none) →
      lookupB e'.isHandled id = true) ∧
    (∀ (n : Nat) (e e' : Engine) (tr tr' : List Ev) (id : String) (rest : List String),
      lookupB e.isPending id = false →
      (lookup? e.payloadables id).isNone = false →
      invokePayloadable n e tr id = (e', tr', none) →
      waitLoop (n+1) e tr (id :: rest) = waitLoop n e' tr' rest ∧
        lookupB e'.isHandled id = true) :=
  ⟨fun _ => ⟨rfl, rfl⟩,
   fun n e e' tr tr' id h => (invoke_handled n e tr id e' tr' h).1,
   fun n e e' tr tr' id rest hp hreg h =>
     ⟨waitLoop_cons_invoke n e tr id rest e' tr' hp hreg h,
      (invoke_handled n e tr id e' tr' h).1⟩⟩

/-- Witness for C1 at a concrete input: invoking the sole subscriber of
`engSolo` mid-round leaves it handled, and the `waitFor` loop steps into the
post-invocation state. -/
theorem flux_C1_witness :
    lookupB ((invokePayloadable 99 (startDispatching engSolo 0) [] "ID_1").1).isHandled
      "ID_1" = true ∧
    waitLoop 100 (startDispatching engSolo 0) [] ["ID_1", "ID_1"] =
      waitLoop 99 (invokePayloadable 99 (startDispatching engSolo 0) [] "ID_1").1
        (invokePayloadable 99 (startDispatching engSolo 0) [] "ID_1").2.1 ["ID_1"] :=
  ⟨flux_C1.2.1 99 (startDispatching engSolo 0)
      (invokePayloadable 99 (startDispatching engSolo 0) [] "ID_1").1 []
      (invokePayloadable 99 (startDispatching engSolo 0) [] "ID_1").2.1 "ID_1" rfl,
   (flux_C1.2.2 99 (startDispatching engSolo 0)
      (invokePayloadable 99 (startDispatching engSolo 0) [] "ID_1").1 []
      (invokePayloadable 99 (startDispatching engSolo 0) [] "ID_1").2.1 "ID_1" ["ID_1"]
      rfl rfl rfl).1⟩

/-- Claim C2: with X (`ID_1`) and Y (`ID_2`) waiting for each other,
`dispatch` raises `CircularDependency` naming `ID_1` — the token that is
pending but not yet handled at the failing `waitFor` (X, the target of the
second `waitFor` resolution of the chain); afterwards `isDispatching()` is
false and a subsequent `dispatch` on the same engine is accepted normally:
it is not rejected as reentrant, and its trace shows the subscribers being
invoked again (the fresh round then hits the same cycle). -/
theorem flux_C2 : ∀ p q : Nat,
    (dispatchRun 100 engXY [] p).2.2 = some (Err.circularDependency "ID_1") ∧
    lookupB ((dispatchRun 100 engXY [] p).1).isPending "ID_1" = true ∧
    lookupB ((dispatchRun 100 engXY [] p).1).isHandled "ID_1" = false ∧
    isDispatchingQ (dispatchRun 100 engXY [] p).1 = false ∧
    (dispatchRun 100 (dispatchRun 100 engXY [] p).1 [] q).2.2 =
      some (Err.circularDependency "ID_1") ∧
    invokedIds (dispatchRun 100 (dispatchRun 100 engXY [] p).1 [] q).2.1 =
      ["ID_1", "ID_2"] :=
  fun _ _ => ⟨rfl, rfl, rfl, rfl, rfl, rfl⟩

/-- Claim C3: calling `dispatch` while a round is already active fails
immediately with `ReentrantDispatch` and returns the engine state, the
trace, everything, completely unchanged — no queuing, no partial round
setup. -/
theorem flux_C3 : ∀ (n : Nat) (e : Engine) (tr : List Ev) (p : Nat),
    e.isDispatching = true →
    dispatchRun (n+1) e tr p = (e, tr, some Err.reentrantDispatch) := by
  intro n e tr p h
  rw [dispatchRun]
  simp [h]

/-- Witness for C3 at a concrete input: a reentrant `dispatch` against a
mid-round engine state. -/
theorem flux_C3_witness :
    dispatchRun 7 (startDispatching engSolo 3) [] 9 =
      (startDispatching engSolo 3, [], some Err.reentrantDispatch) :=
  flux_C3 6 (startDispatching engSolo 3) [] 9 rfl

/-- Claim C4 counterexample: after a successful `dispatch` on `engSolo`,
the pending and handled flags of the invoked token are still present and
`true` — `_stopDispatching` does not remove them, contradicting the claim
that all round-scoped flags are cleared before control leaves `dispatch`. -/
theorem flux_C4_counterexample :
    (dispatchRun 100 engSolo [] 0).2.2 = none ∧
    lookupB ((dispatchRun 100 engSolo [] 0).1).isPending "ID_1" = true ∧
    lookupB ((dispatchRun 100 engSolo [] 0).1).isHandled "ID_1" = true :=
  ⟨rfl, rfl, rfl⟩

/-- Claim C4 (amended): for every accepted `dispatch` call, whether it
returns normally or an error propagates, before control leaves `dispatch`
the stored payload is removed and `isDispatching()` returns false; the
pending/handled flags, however, persist and are only reset for registered
tokens when the next round starts. -/
theorem flux_C4 : ∀ (n : Nat) (e : Engine) (tr : List Ev) (p : Nat),
    e.isDispatching = false →
    isDispatchingQ (dispatchRun (n+1) e tr p).1 = false ∧
    (dispatchRun (n+1) e tr p).1.pendingPayload = none := by
  intro n e tr p h
  rw [dispatchRun_succ n e tr p h]
  exact ⟨rfl, rfl⟩

/-- Witness for C4 at a concrete input. -/
theorem flux_C4_witness :
    isDispatchingQ (dispatchRun 100 engSolo [] 5).1 = false ∧
    (dispatchRun 100 engSolo [] 5).1.pendingPayload = none :=
  flux_C4 99 engSolo [] 5 rfl

/-- Claim C5 counterexample: in `engLate`, token `ID_2` is not registered
when the round starts, it is the very token the mid-round registration
mints, and yet the round's trace shows `ID_2` being invoked with the
in-flight payload (through the callback's `waitFor` on the fresh token) —
refuting "never invoked with the round's in-flight payload". -/
theorem flux_C5_counterexample :
    lookup? engLate.payloadables "ID_2" = none ∧
    (registerE engLate []).1 = "ID_2" ∧
    (dispatchRun 100 engLate [] 5).2.1 =
      [Ev.invoked "ID_1" (some 5), Ev.invoked "ID_2" (some 5),
       Ev.handled "ID_2", Ev.handled "ID_1"] :=
  ⟨rfl, rfl, rfl⟩

/-- Claim C5 (amended): a subscriber registered while a round is active is
not invoked by the main dispatch iteration (whose key list is the registry
snapshot taken when the loop starts) even though it ends up in the registry;
but it can be reached with the in-flight payload through a callback's
`waitFor` on the newly issued token, so the set of invokable subscribers is
not fixed at round start. -/
theorem flux_C5 :
    (∀ p : Nat, invokedIds (dispatchRun 100 (engLateReg []) [] p).2.1 = ["ID_1"]) ∧
    lookup? ((dispatchRun 100 (engLateReg []) [] 0).1).payloadables "ID_2" = some [] ∧
    lookup? (engLateReg []).payloadables "ID_2" = none :=
  ⟨fun _ => rfl, rfl, rfl⟩

/-- Claim C6: within a round each token advances monotonically through
unvisited, pending, handled: invocation sets the pending flag first (it is
true in the result state no matter how the callback ends), the handled flag
is set only after the callback returns normally (and is then the last trace
event), pending and handled flags never regress while a callback body runs,
the handled-implies-pending invariant is preserved across a whole round, the
tokens invoked in a round are pairwise distinct, and both the dispatch loop
and the `waitFor` loop skip tokens that are already pending. -/
theorem flux_C6 :
    (∀ (n : Nat) (e : Engine) (tr : List Ev) (id : String), e.isDispatching = true →
      lookupB ((invokePayloadable (n+1) e tr id).1).isPending id = true) ∧
    (∀ (n : Nat) (e e' : Engine) (tr tr' : List Ev) (id : String),
      invokePayloadable n e tr id = (e', tr', none) →
      lookupB e'.isHandled id = true ∧ ∃ tr0, tr' = tr0 ++ [Ev.handled id]) ∧
    (∀ (n : Nat) (e : Engine) (tr : List Ev) (acts : List Act) (id : String),
      e.isDispatching = true →
      (lookupB e.isPending id = true →
        lookupB ((runActions n e tr acts).1).isPending id = true) ∧
      (lookupB e.isHandled id = true →
        lookupB ((runActions n e tr acts).1).isHandled id = true)) ∧
    (∀ (n : Nat) (e : Engine) (tr : List Ev) (p : Nat),
      e.isDispatching = false → RoundInv e → RoundInv (dispatchRun (n+1) e tr p).1) ∧
    (∀ (n : Nat) (e : Engine) (tr : List Ev) (p : Nat), e.isDispatching = false →
      ∃ d, (dispatchRun (n+1) e tr p).2.1 = tr ++ d ∧ (invokedIds d).Nodup) ∧
    (∀ (n : Nat) (e : Engine) (tr : List Ev) (id : String) (rest : List String),
      lookupB e.isPending id = true → lookupB e.isHandled id = true →
      waitLoop (n+1) e tr (id :: rest) = waitLoop n e tr rest) ∧
    (∀ (n : Nat) (e : Engine) (tr : List Ev) (id : String) (rest : List String),
      lookupB e.isPending id = true →
      dispatchLoop (n+1) e tr (id :: rest) = dispatchLoop n e tr rest) :=
  ⟨invoke_pending,
   fun n e e' tr tr' id h => invoke_handled n e tr id e' tr' h,
   fun n e tr acts id h =>
     ⟨((roundSteps n).2.1 e tr acts h).pendMono id,
      ((roundSteps n).2.1 e tr acts h).handMono id⟩,
   dispatch_round_inv,
   dispatch_round_nodup,
   waitLoop_cons_skip,
   dispatchLoop_cons_skip⟩

/-- Witness for C6 at concrete inputs: the sole subscriber of `engSolo` mid-
round, a full round on `engSolo`, and skip steps at the post-round state
where `ID_1` is pending and handled. -/
theorem flux_C6_witness :
    lookupB ((invokePayloadable 100 (startDispatching engSolo 0) [] "ID_1").1).isPending
      "ID_1" = true ∧
    RoundInv (dispatchRun 100 engSolo [] 3).1 ∧
    (∃ d, (dispatchRun 100 engSolo [] 3).2.1 = [] ++ d ∧ (invokedIds d).Nodup) ∧
    waitLoop 100 (dispatchRun 100 engSolo [] 0).1 [] ["ID_1"] =
      waitLoop 99 (dispatchRun 100 engSolo [] 0).1 [] [] ∧
    dispatchLoop 100 (dispatchRun 100 engSolo [] 0).1 [] ["ID_1"] =
      dispatchLoop 99 (dispatchRun 100 engSolo [] 0).1 [] [] := by
  refine ⟨flux_C6.1 99 (startDispatching engSolo 0) [] "ID_1" rfl,
          flux_C6.2.2.2.1 99 engSolo [] 3 rfl ?_,
          flux_C6.2.2.2.2.1 99 engSolo [] 3 rfl,
          flux_C6.2.2.2.2.2.1 99 (dispatchRun 100 engSolo [] 0).1 [] "ID_1" [] rfl rfl,
          flux_C6.2.2.2.2.2.2 99 (dispatchRun 100 engSolo [] 0).1 [] "ID_1" [] rfl⟩
  intro id hh
  simp [engSolo, registerE, initEngine, lookupB, lookup?] at hh

/-- Claim C7: over any sequence of `register`/`unregister` operations on one
engine, the tokens handed out by `register` are pairwise distinct — token
values are minted from the monotonically increasing `_lastID` and are never
reused, even after intervening `unregister` calls. -/
theorem flux_C7 : ∀ ops : List RegOp, ((applyOps initEngine ops).2).Nodup :=
  fun ops => (applyOps_tokens ops initEngine).1

/-- Claim C8: a subscriber error aborts the remainder of the round and
propagates unchanged.  Concretely, with three subscribers of which the
second throws, the third is never invoked and the thrown error is what
`dispatch` surfaces; in general a throwing action yields exactly the thrown
error, an invocation error makes the dispatch loop and the `waitFor` loop
return it at once without visiting the remaining tokens, and `dispatch`
surfaces the loop's error unchanged (after teardown). -/
theorem flux_C8 :
    (∀ p : Nat,
      (dispatchRun 100 (engThrowM "boom") [] p).2.2 = some (Err.callbackError "boom") ∧
      invokedIds (dispatchRun 100 (engThrowM "boom") [] p).2.1 = ["ID_1", "ID_2"] ∧
      handledIds (dispatchRun 100 (engThrowM "boom") [] p).2.1 = ["ID_1"]) ∧
    (∀ (n : Nat) (e : Engine) (tr : List Ev) (m : String),
      runAction (n+1) e tr (Act.throwErr m) = (e, tr, some (Err.callbackError m))) ∧
    (∀ (n : Nat) (e e1 : Engine) (tr tr1 : List Ev) (id : String) (rest : List String)
        (er : Err),
      (lookup? e.payloadables id).isNone = false → lookupB e.isPending id = false →
      invokePayloadable n e tr id = (e1, tr1, some er) →
      dispatchLoop (n+1) e tr (id :: rest) = (e1, tr1, some er)) ∧
    (∀ (n : Nat) (e e1 : Engine) (tr tr1 : List Ev) (id : String) (rest : List String)
        (er : Err),
      lookupB e.isPending id = false → (lookup? e.payloadables id).isNone = false →
      invokePayloadable n e tr id = (e1, tr1, some er) →
      waitLoop (n+1) e tr (id :: rest) = (e1, tr1, some er)) ∧
    (∀ (n : Nat) (e : Engine) (tr : List Ev) (p : Nat), e.isDispatching = false →
      (dispatchRun (n+1) e tr p).2.2 =
        (dispatchLoop n (startDispatching e p) tr
          ((startDispatching e p).payloadables.map Prod.fst)).2.2) :=
  ⟨fun _ => ⟨rfl, rfl, rfl⟩,
   fun n e tr m => by rw [runAction],
   fun n e e1 tr tr1 id rest er hreg hp h =>
     dispatchLoop_cons_error n e tr id rest e1 tr1 er hreg hp h,
   fun n e e1 tr tr1 id rest er hp hreg h =>
     waitLoop_cons_error n e tr id rest e1 tr1 er hp hreg h,
   fun n e tr p h => by rw [dispatchRun_succ n e tr p h]⟩

/-- Witness for C8 at concrete inputs: invoking the throwing subscriber of
`engThrowM` mid-round makes both loops return its error at once, and a
round on `engSolo` surfaces the loop's error slot unchanged. -/
theorem flux_C8_witness :
    runAction 8 initEngine [] (Act.throwErr "oops") =
      (initEngine, [], some (Err.callbackError "oops")) ∧
    dispatchLoop 100 (startDispatching (engThrowM "boom") 1) [] ["ID_2", "ID_3"] =
      ((invokePayloadable 99 (startDispatching (engThrowM "boom") 1) [] "ID_2").1,
       (invokePayloadable 99 (startDispatching (engThrowM "boom") 1) [] "ID_2").2.1,
       some (Err.callbackError "boom")) ∧
    waitLoop 100 (startDispatching (engThrowM "boom") 1) [] ["ID_2"] =
      ((invokePayloadable 99 (startDispatching (engThrowM "boom") 1) [] "ID_2").1,
       (invokePayloadable 99 (startDispatching (engThrowM "boom") 1) [] "ID_2").2.1,
       some (Err.callbackError "boom")) ∧
    (dispatchRun 100 engSolo [] 2).2.2 =
      (dispatchLoop 99 (startDispatching engSolo 2) []
        ((startDispatching engSolo 2).payloadables.map Prod.fst)).2.2 :=
  ⟨flux_C8.2.1 7 initEngine [] "oops",
   flux_C8.2.2.1 99 (startDispatching (engThrowM "boom") 1)
     (invokePayloadable 99 (startDispatching (engThrowM "boom") 1) [] "ID_2").1 []
     (invokePayloadable 99 (startDispatching (engThrowM "boom") 1) [] "ID_2").2.1
     "ID_2" ["ID_3"] (Err.callbackError "boom") rfl rfl rfl,
   flux_C8.2.2.2.1 99 (startDispatching (engThrowM "boom") 1)
     (invokePayloadable 99 (startDispatching (engThrowM "boom") 1) [] "ID_2").1 []
     (invokePayloadable 99 (startDispatching (engThrowM "boom") 1) [] "ID_2").2.1
     "ID_2" [] (Err.callbackError "boom") rfl rfl rfl,
   flux_C8.2.2.2.2 99 engSolo [] 2 rfl⟩

/-- Claim C9: `unregister` on a token with no current registry entry —
whether never issued or previously removed — fails with `UnknownSubscriber`
and leaves the engine unchanged; after a successful `unregister(t)`, the
entry for `t` is gone, so a second `unregister(t)` fails the same way. -/
theorem flux_C9 : ∀ (e : Engine) (t : String),
    (lookup? e.payloadables t = none →
      unregisterE e t = (e, some (Err.unknownSubscriber t))) ∧
    (∀ e' : Engine, unregisterE e t = (e', none) →
      lookup? e'.payloadables t = none ∧
      unregisterE e' t = (e', some (Err.unknownSubscriber t))) := by
  intro e t
  constructor
  · intro h
    unfold unregisterE
    simp [h]
  · intro e' h
    unfold unregisterE at h
    by_cases hx : (lookup? e.payloadables t).isNone = true
    · rw [if_pos hx] at h
      simp at h
    · rw [if_neg hx] at h
      simp only [Prod.mk.injEq] at h
      obtain ⟨he, -⟩ := h
      subst he
      have hdel : lookup? (delKey e.payloadables t) t = none := lookup?_delKey_self _ _
      refine ⟨hdel, ?_⟩
      unfold unregisterE
      simp [hdel]

/-- Witness for C9 at concrete inputs: a never-issued token on the fresh
engine, and a double `unregister` of the sole token of `engSolo`. -/
theorem flux_C9_witness :
    unregisterE initEngine "ID_1" = (initEngine, some (Err.unknownSubscriber "ID_1")) ∧
    lookup? ((unregisterE engSolo "ID_1").1).payloadables "ID_1" = none ∧
    unregisterE (unregisterE engSolo "ID_1").1 "ID_1" =
      ((unregisterE engSolo "ID_1").1, some (Err.unknownSubscriber "ID_1")) := by
  refine ⟨(flux_C9 initEngine "ID_1").1 rfl, ?_, ?_⟩
  · exact ((flux_C9 engSolo "ID_1").2 (unregisterE engSolo "ID_1").1 rfl).1
  · exact ((flux_C9 engSolo "ID_1").2 (unregisterE engSolo "ID_1").1 rfl).2

/-- Claim C10: `waitFor` maps each argument through its `.dispatchToken`
property, so a raw token string yields `undefined` (coerced to the property
key `"undefined"`): with subscriber A passing the raw string `"ID_2"` of the
registered, not-yet-invoked subscriber B, the dispatch fails with the
`UnknownSubscriber` ("does not map to a registered callback") error naming
`undefined`, and B is never invoked. -/
theorem flux_C10 : ∀ (p : Nat) (s : String),
    JSValue.dispatchTokenProp (JSValue.str s) = none ∧
    keyOf (JSValue.dispatchTokenProp (JSValue.str s)) = "undefined" ∧
    lookup? engRaw.payloadables "ID_2" = some [] ∧
    (dispatchRun 100 engRaw [] p).2.2 = some (Err.unknownSubscriber "undefined") ∧
    invokedIds (dispatchRun 100 engRaw [] p).2.1 = ["ID_1"] :=
  fun _ _ => ⟨rfl, rfl, rfl, rfl, rfl⟩
